import Mathlib

/-!
Shallow embedding of the TetrisClock CircuitPython program
(src/circuitpython/code.py) and verification of the frozen claims about
its animation engine, compositor, set_time idempotence, retry logic,
daily-reconnect guard and drawing bounds.
-/

namespace TetrisClock

/-- Fixed display constant: matrix width in pixels. -/
def DISPLAY_WIDTH : Int := 64

/-- Fixed display constant: matrix height in pixels. -/
def DISPLAY_HEIGHT : Int := 32

/-- Scale factor for blocks (2 = 2x2 pixel blocks). -/
def SCALE : Int := 2

/-- Horizontal distance between digit slots, in block units. -/
def TETRIS_DISTANCE_BETWEEN_DIGITS : Int := 7

/-- Default drop height in block rows. -/
def TETRIS_Y_DROP_DEFAULT : Int := 16

/-- One entry of a digit's fall script:
(blocktype, color, x_pos, y_stop, num_rot). -/
abbrev Step := Nat × Nat × Nat × Nat × Nat

def NUM_0 : List Step :=
  [(2, 5, 4, 16, 0), (4, 7, 2, 16, 1), (3, 4, 0, 16, 1), (6, 6, 1, 16, 1),
   (5, 1, 4, 14, 0), (6, 6, 0, 13, 3), (5, 1, 4, 12, 0), (5, 1, 0, 11, 0),
   (6, 6, 4, 10, 1), (6, 6, 0, 9, 1), (5, 1, 1, 8, 1), (2, 5, 3, 8, 3)]

def NUM_1 : List Step :=
  [(2, 5, 4, 16, 0), (3, 4, 4, 15, 1), (3, 4, 5, 13, 3), (2, 5, 4, 11, 2),
   (0, 0, 4, 8, 0)]

def NUM_2 : List Step :=
  [(0, 0, 4, 16, 0), (3, 4, 0, 16, 1), (1, 2, 1, 16, 3), (1, 2, 1, 15, 0),
   (3, 4, 1, 12, 2), (1, 2, 0, 12, 1), (2, 5, 3, 12, 3), (0, 0, 4, 10, 0),
   (3, 4, 1, 8, 0), (2, 5, 3, 8, 3), (1, 2, 0, 8, 1)]

def NUM_3 : List Step :=
  [(1, 2, 3, 16, 3), (2, 5, 0, 16, 1), (3, 4, 1, 15, 2), (0, 0, 4, 14, 0),
   (3, 4, 1, 12, 2), (1, 2, 0, 12, 1), (3, 4, 5, 12, 3), (2, 5, 3, 11, 0),
   (3, 4, 1, 8, 0), (1, 2, 0, 8, 1), (2, 5, 3, 8, 3)]

def NUM_4 : List Step :=
  [(0, 0, 4, 16, 0), (0, 0, 4, 14, 0), (3, 4, 1, 12, 0), (1, 2, 0, 12, 1),
   (2, 5, 0, 10, 0), (2, 5, 3, 12, 3), (3, 4, 4, 10, 3), (2, 5, 0, 9, 2),
   (3, 4, 5, 10, 1)]

def NUM_5 : List Step :=
  [(0, 0, 0, 16, 0), (2, 5, 2, 16, 1), (2, 5, 3, 15, 0), (3, 4, 5, 16, 1),
   (3, 4, 1, 12, 0), (1, 2, 0, 12, 1), (2, 5, 3, 12, 3), (0, 0, 0, 10, 0),
   (3, 4, 1, 8, 2), (1, 2, 0, 8, 1), (2, 5, 3, 8, 3)]

def NUM_6 : List Step :=
  [(2, 5, 0, 16, 1), (5, 1, 2, 16, 1), (6, 6, 0, 15, 3), (6, 6, 4, 16, 3),
   (5, 1, 4, 14, 0), (3, 4, 1, 12, 2), (2, 5, 0, 13, 2), (3, 4, 2, 11, 0),
   (0, 0, 0, 10, 0), (3, 4, 1, 8, 0), (1, 2, 0, 8, 1), (2, 5, 3, 8, 3)]

def NUM_7 : List Step :=
  [(0, 0, 4, 16, 0), (1, 2, 4, 14, 0), (3, 4, 5, 13, 1), (2, 5, 4, 11, 2),
   (3, 4, 1, 8, 2), (2, 5, 3, 8, 3), (1, 2, 0, 8, 1)]

def NUM_8 : List Step :=
  [(3, 4, 1, 16, 0), (6, 6, 0, 16, 1), (3, 4, 5, 16, 1), (1, 2, 2, 15, 3),
   (4, 7, 0, 14, 0), (1, 2, 1, 12, 3), (6, 6, 4, 13, 1), (2, 5, 0, 11, 1),
   (4, 7, 0, 10, 0), (4, 7, 4, 11, 0), (5, 1, 0, 8, 1), (5, 1, 2, 8, 1),
   (1, 2, 4, 9, 2)]

def NUM_9 : List Step :=
  [(0, 0, 0, 16, 0), (3, 4, 2, 16, 0), (1, 2, 2, 15, 3), (1, 2, 4, 15, 2),
   (3, 4, 1, 12, 2), (3, 4, 5, 12, 3), (5, 1, 0, 12, 0), (1, 2, 2, 11, 3),
   (5, 1, 4, 9, 0), (6, 6, 0, 10, 1), (5, 1, 0, 8, 1), (6, 6, 2, 8, 2)]

def NUMBERS : List (List Step) :=
  [NUM_0, NUM_1, NUM_2, NUM_3, NUM_4, NUM_5, NUM_6, NUM_7, NUM_8, NUM_9]

/-- Per-slot animation state, as in the per-position dict created in
__init__: num_to_draw (-1 = blank), fallindex, blockindex, x_shift. -/
structure NumState where
  num_to_draw : Int
  fallindex : Nat
  blockindex : Nat
  x_shift : Int
deriving DecidableEq

/-- The initial per-slot state from __init__. -/
def initState : NumState :=
  { num_to_draw := -1, fallindex := 0, blockindex := 0, x_shift := 0 }

/-- Fall script for a digit value; empty for out-of-range values
(draw_numbers skips those slots, set_time stores them as blanks). -/
def scriptFor (n : Int) : List Step :=
  if n < 0 ∨ 9 < n then [] else NUMBERS.getD n.toNat []

/-- Step access with a default, mirroring indexing into a digit's list. -/
def stepAt (fd : List Step) (i : Nat) : Step := fd.getD i (0, 0, 0, 0, 0)

/-- The y_stop (fall distance) component of a script step. -/
def fallStopAt (fd : List Step) (i : Nat) : Nat := (stepAt fd i).2.2.2.1

/-- time_str.replace with an empty replacement for the colon character. -/
def stripColons (ts : List Char) : List Char := ts.filter (fun c => c ≠ ':')

/-- The character set_time examines for slot pos:
time_str[pos] after colon removal, a space if the string is too short. -/
def slotChar (ts : List Char) (pos : Nat) : Char := (stripColons ts).getD pos ' '

/-- number = int(char) if char.isdigit() else -1. -/
def parseDigit (c : Char) : Int :=
  if c.isDigit then (c.toNat : Int) - ('0'.toNat : Int) else -1

/-- Horizontal offset for slot pos: pos spacings, plus the extra colon
gap for the minute slots. -/
def xOffsetFor (pos : Nat) : Int :=
  (pos : Int) * TETRIS_DISTANCE_BETWEEN_DIGITS * SCALE +
    (if 2 ≤ pos then 3 * SCALE else 0)

/-- One slot's update in set_time: reassign and reset only when forced
or when the parsed digit differs from the currently displayed one. -/
def setTimeSlot (s : NumState) (ts : List Char) (pos : Nat) (force : Bool) :
    NumState :=
  let number := parseDigit (slotChar ts pos)
  if force = true ∨ number ≠ s.num_to_draw then
    { num_to_draw := number, fallindex := 0, blockindex := 0,
      x_shift := xOffsetFor pos }
  else s

/-- The body of set_time's loop over positions, carried along the slot
list: positions 0..3 are updated, any further entries are untouched. -/
def setTimeGo (ts : List Char) (force : Bool) : Nat → List NumState → List NumState
  | _, [] => []
  | pos, s :: rest =>
    (if pos < 4 then setTimeSlot s ts pos force else s) ::
      setTimeGo ts force (pos + 1) rest

/-- set_time over the whole slot list. -/
def setTime (states : List NumState) (ts : List Char) (force : Bool) :
    List NumState :=
  setTimeGo ts force 0 states

theorem setTimeGo_getD (ts : List Char) (force : Bool) :
    ∀ (states : List NumState) (pos0 pos : Nat), pos < states.length →
      (setTimeGo ts force pos0 states).getD pos initState =
        (if pos0 + pos < 4 then
          setTimeSlot (states.getD pos initState) ts (pos0 + pos) force
        else states.getD pos initState) := by
  intro states
  induction states with
  | nil => intro pos0 pos h; simp at h
  | cons s rest ih =>
    intro pos0 pos h
    cases pos with
    | zero => simp [setTimeGo]
    | succ p =>
      have hp : p < rest.length := by simpa using h
      have := ih (pos0 + 1) p hp
      simp only [setTimeGo, List.getD_cons_succ]
      rw [this]
      have harith : pos0 + 1 + p = pos0 + (p + 1) := by omega
      rw [harith]

theorem setTime_getD (states : List NumState) (ts : List Char) (force : Bool)
    (pos : Nat) (h4 : pos < 4) (hlen : pos < states.length) :
    (setTime states ts force).getD pos initState =
      setTimeSlot (states.getD pos initState) ts pos force := by
  have := setTimeGo_getD ts force states 0 pos hlen
  simpa [setTime, h4] using this

/-- draw_block: the list of frame-buffer writes (px, py, color) made for
one scaled block anchored at (x, y); each candidate pixel is written only
if it passes the in-bounds check. -/
def drawBlock (x y : Int) (color_index : Nat) (scale : Nat) :
    List (Int × Int × Nat) :=
  (List.range scale).flatMap (fun dx =>
    (List.range scale).filterMap (fun dy =>
      let px := x + dx
      let py := y + dy
      if 0 ≤ px ∧ px < DISPLAY_WIDTH ∧ 0 ≤ py ∧ py < DISPLAY_HEIGHT then
        some (px, py, color_index)
      else none))

/-- The block anchors of each tetromino shape per rotation, as multiples
of the scale, in the order draw_shape issues its draw_block calls.
Entry (kx, ky) stands for the call at (x_pos + kx * scale, y_pos + ky * scale). -/
def shapeCells (blocktype num_rot : Nat) : List (Int × Int) :=
  if blocktype = 0 then
    [(0, 0), (1, 0), (0, -1), (1, -1)]
  else if blocktype = 1 then
    if num_rot = 0 then [(0, 0), (1, 0), (0, -1), (0, -2)]
    else if num_rot = 1 then [(0, 0), (0, -1), (1, -1), (2, -1)]
    else if num_rot = 2 then [(1, 0), (1, -1), (1, -2), (0, -2)]
    else [(0, 0), (1, 0), (2, 0), (2, -1)]
  else if blocktype = 2 then
    if num_rot = 0 then [(0, 0), (1, 0), (1, -1), (1, -2)]
    else if num_rot = 1 then [(0, 0), (1, 0), (2, 0), (0, -1)]
    else if num_rot = 2 then [(0, 0), (0, -1), (0, -2), (1, -2)]
    else [(0, -1), (1, -1), (2, -1), (2, 0)]
  else if blocktype = 3 then
    if num_rot = 0 ∨ num_rot = 2 then [(0, 0), (1, 0), (2, 0), (3, 0)]
    else [(0, 0), (0, -1), (0, -2), (0, -3)]
  else if blocktype = 4 then
    if num_rot = 0 ∨ num_rot = 2 then [(1, 0), (0, -1), (1, -1), (0, -2)]
    else [(0, 0), (1, 0), (1, -1), (2, -1)]
  else if blocktype = 5 then
    if num_rot = 0 ∨ num_rot = 2 then [(0, 0), (0, -1), (1, -1), (1, -2)]
    else [(1, 0), (2, 0), (0, -1), (1, -1)]
  else if blocktype = 6 then
    if num_rot = 0 then [(0, 0), (1, 0), (2, 0), (1, -1)]
    else if num_rot = 1 then [(0, 0), (0, -1), (0, -2), (1, -1)]
    else if num_rot = 2 then [(1, 0), (0, -1), (1, -1), (2, -1)]
    else [(1, 0), (0, -1), (1, -1), (1, -2)]
  else if blocktype = 7 then
    if num_rot = 0 then [(0, 0), (1, 0), (0, -1)]
    else if num_rot = 1 then [(0, 0), (0, -1), (1, -1)]
    else if num_rot = 2 then [(1, 0), (1, -1), (0, -1)]
    else [(0, 0), (1, 0), (1, -1)]
  else []

/-- draw_shape: one draw_block call per shape cell, anchored at the
shape's position, offsets scaled by the block scale. -/
def drawShape (blocktype color_idx : Nat) (x_pos y_pos : Int)
    (num_rot scale : Nat) : List (Int × Int × Nat) :=
  (shapeCells blocktype num_rot).flatMap (fun off =>
    drawBlock (x_pos + off.1 * (scale : Int)) (y_pos + off.2 * (scale : Int))
      color_idx scale)

/-- The rotation actually drawn at a given fallindex, from the
rotation-animation branch of draw_numbers. -/
def rotationsFor (num_rot fallindex y_stop : Nat) : Nat :=
  if num_rot = 1 then
    if fallindex < y_stop / 2 then 0 else 1
  else if num_rot = 2 then
    if fallindex < y_stop / 3 then 0
    else if fallindex < y_stop * 2 / 3 then 1
    else 2
  else if num_rot = 3 then
    if fallindex < y_stop / 4 then 0
    else if fallindex < y_stop / 2 then 1
    else if fallindex < y_stop * 3 / 4 then 2
    else 3
  else num_rot

/-- Tag distinguishing the one live falling draw from the draws of
already-landed steps in a compositor pass. -/
inductive PaintKind where
  | falling
  | landed
deriving DecidableEq

/-- One draw_shape call issued by draw_numbers for a slot. -/
structure ShapeOp where
  kind : PaintKind
  blocktype : Nat
  color : Nat
  x : Int
  y : Int
  rot : Nat
deriving DecidableEq

/-- The resting y coordinate of a step with the given y_stop:
y + y_stop * SCALE - SCALE, with y the pass's top-of-drop row. -/
def restingY (y : Int) (y_stop : Nat) : Int :=
  y + (y_stop : Int) * SCALE - SCALE

/-- State advance for the falling piece in draw_numbers: fallindex is
incremented; past y_stop it resets to 0 and blockindex advances. -/
def advanceSlot (s : NumState) (fd : List Step) : NumState :=
  if s.blockindex < fd.length then
    if fallStopAt fd s.blockindex < s.fallindex + 1 then
      { s with fallindex := 0, blockindex := s.blockindex + 1 }
    else { s with fallindex := s.fallindex + 1 }
  else s

/-- The draw of the currently falling piece, when one exists. -/
def fallingOpsFor (x y : Int) (s : NumState) (fd : List Step) : List ShapeOp :=
  if s.blockindex < fd.length then
    let st := stepAt fd s.blockindex
    [{ kind := PaintKind.falling, blocktype := st.1, color := st.2.1,
       x := x + (st.2.2.1 : Int) * SCALE + s.x_shift,
       y := y + (s.fallindex : Int) * SCALE - SCALE,
       rot := rotationsFor st.2.2.2.2 s.fallindex st.2.2.2.1 }]
  else []

/-- The draws of the already-dropped steps 0..blockindex-1, each at its
resting row with its final rotation. -/
def landedOpsFor (x y : Int) (xShift : Int) (fd : List Step)
    (blockindex : Nat) : List ShapeOp :=
  (List.range blockindex).map (fun i =>
    let st := stepAt fd i
    { kind := PaintKind.landed, blocktype := st.1, color := st.2.1,
      x := x + (st.2.2.1 : Int) * SCALE + xShift,
      y := restingY y st.2.2.2.1,
      rot := st.2.2.2.2 })

/-- One slot's work inside a draw_numbers pass: skip blank slots;
otherwise draw the falling piece, advance the fall state, then draw the
steps that have landed (using the advanced blockindex, as the code
increments it before the landed loop). Returns the ordered draw list and
the new slot state. -/
def slotDraw (x y : Int) (s : NumState) : List ShapeOp × NumState :=
  if s.num_to_draw < 0 ∨ 9 < s.num_to_draw then ([], s)
  else
    let fd := scriptFor s.num_to_draw
    let s1 := advanceSlot s fd
    (fallingOpsFor x y s fd ++ landedOpsFor x y s.x_shift fd s1.blockindex, s1)

/-- Whether a slot contributes "still animating" to draw_numbers'
finished flag. -/
def slotDone (s : NumState) : Bool :=
  if s.num_to_draw < 0 ∨ 9 < s.num_to_draw then true
  else decide ((scriptFor s.num_to_draw).length ≤ s.blockindex)

/-- A full draw_numbers pass: the per-slot draws in slot order, the new
slot states, and the finished-animating flag. -/
def drawNumbers (x yFinish : Int) (states : List NumState) :
    List ShapeOp × List NumState × Bool :=
  let y := yFinish - TETRIS_Y_DROP_DEFAULT * SCALE
  let rs := (List.range 4).map (fun pos => slotDraw x y (states.getD pos initState))
  (rs.flatMap Prod.fst, rs.map Prod.snd,
   (List.range 4).all (fun pos => slotDone (states.getD pos initState)))

/-- Modelled from the spec's words for the refinement comparison in the
rotation-banding claim: the band of [0, fall_stop) containing
tick_in_step when the interval is partitioned into rotation_profile + 1
equal-width bands. -/
def equalWidthBand (profile fallindex fall_stop : Nat) : Nat :=
  fallindex * (profile + 1) / fall_stop

/-- Events observable in one sync_time_with_retry call: a fetch attempt
and a sleep of a given duration. -/
inductive SyncEvent where
  | attempt (i : Nat)
  | sleep (d : Nat)
deriving DecidableEq

/-- Whether a sync event is a fetch attempt. -/
def SyncEvent.isAttempt : SyncEvent → Bool
  | SyncEvent.attempt _ => true
  | SyncEvent.sleep _ => false

/-- The retry loop of sync_time_with_retry over the remaining attempt
indices: a successful fetch sets the clock and returns True at once; a
failed attempt is caught, sleeps retry_delay unless it was the last
attempt, and the loop continues; when attempts are exhausted the clock
is left alone and False is returned. The network fetch is the outside
collaborator, passed in as an oracle from attempt index to an optional
fetched time. -/
def syncAttempts (fetch : Nat → Option Int) (max_retries retry_delay : Nat)
    (clock : Int) : List Nat → List SyncEvent × Bool × Int
  | [] => ([], false, clock)
  | i :: rest =>
    match fetch i with
    | some t => ([SyncEvent.attempt i], true, t)
    | none =>
      let r := syncAttempts fetch max_retries retry_delay clock rest
      (SyncEvent.attempt i ::
        ((if i < max_retries - 1 then [SyncEvent.sleep retry_delay] else []) ++ r.1),
       r.2.1, r.2.2)

/-- sync_time_with_retry: iterate the attempt loop over
range(max_retries). Result: the event trace, the returned flag, and the
system clock after the call. -/
def sync_time_with_retry (fetch : Nat → Option Int)
    (max_retries retry_delay : Nat) (clock : Int) :
    List SyncEvent × Bool × Int :=
  syncAttempts fetch max_retries retry_delay clock (List.range max_retries)

/-- The wall-time fields the daily-reconnect check reads each tick. -/
structure LoopTime where
  hour : Int
  minute : Int
  mday : Int
deriving DecidableEq

/-- The daily-reconnect guard from the main loop: fire when the hour and
minute match the configured trigger and the day-of-month differs from
the last-fired-day marker; firing stores the current day in the marker. -/
def dailyCheck (h m lastDay : Int) (t : LoopTime) : Bool × Int :=
  if t.hour = h ∧ t.minute = m ∧ t.mday ≠ lastDay then (true, t.mday)
  else (false, lastDay)

/-- Run the daily-reconnect guard over a sequence of observed tick
times, returning the per-tick fire flags and the final marker. -/
def dailyRun (h m : Int) (lastDay : Int) : List LoopTime → List Bool × Int
  | [] => ([], lastDay)
  | t :: ts =>
    let r := dailyCheck h m lastDay t
    let rest := dailyRun h m r.2 ts
    (r.1 :: rest.1, rest.2)

/-- Per-slot view of the operations a run of the program applies to one
slot's state: a draw_numbers tick, or a set_time call with a given time
string and force flag. -/
inductive SlotOp where
  | tick (x y : Int)
  | assign (ts : List Char) (pos : Nat) (force : Bool)

/-- Apply one operation to a slot state. -/
def applySlotOp (s : NumState) : SlotOp → NumState
  | SlotOp.tick x y => (slotDraw x y s).2
  | SlotOp.assign ts pos force => setTimeSlot s ts pos force

/-- Run a sequence of operations on a slot state. -/
def runOps (ops : List SlotOp) (s : NumState) : NumState :=
  ops.foldl applySlotOp s

/-- The fall_stop bound the state-machine invariant compares fallindex
against: the current step's y_stop while a step is falling, 0 once the
slot has landed (fallindex is reset there). -/
def currentFallStop (s : NumState) : Nat :=
  if s.blockindex < (scriptFor s.num_to_draw).length then
    fallStopAt (scriptFor s.num_to_draw) s.blockindex
  else 0

/-- Checks that in a slot's ordered draw list no landed-step draw is
followed by a falling draw, i.e. the falling piece is painted first. -/
def fallingBeforeLanded : List PaintKind → Bool
  | [] => true
  | PaintKind.landed :: rest => rest.all (fun k => k = PaintKind.landed)
  | PaintKind.falling :: rest => fallingBeforeLanded rest

/-- Checks the order the spec asserts: every landed-step draw precedes
the falling draw, so after any falling draw only falling draws remain. -/
def landedBeforeFalling : List PaintKind → Bool
  | [] => true
  | PaintKind.falling :: rest => rest.all (fun k => k = PaintKind.falling)
  | PaintKind.landed :: rest => landedBeforeFalling rest

/-- Claim C2 counterexample: the rotation drawn is not always the
equal-width band containing the tick. Step 1 of digit 1's script has
rotation_profile 1 and fall_stop 15; at tick 7 the code draws rotation 1
(the boundary is the floor 15 / 2 = 7), while the equal-width band of
[0, 15) containing 7 is band 0 (7 * 2 = 14 < 15). -/
theorem rotation_not_equal_width_band :
    stepAt NUM_1 1 = (3, 4, 4, 15, 1) ∧
    rotationsFor 1 7 15 = 1 ∧ equalWidthBand 1 7 15 = 0 ∧
    rotationsFor 1 7 15 ≠ equalWidthBand 1 7 15 := by
  refine ⟨rfl, rfl, rfl, by decide⟩

/-- Claim C2 (amended): whenever rotation_profile + 1 divides fall_stop
(as in the highlighted instance rotation_profile = 2, fall_stop = 12),
the rotation drawn at tick t < fall_stop is the equal-width band of
[0, fall_stop) containing t; band 0 gives rotation 0 and the final band
gives the full rotation_profile. -/
theorem rotations_match_equal_width_band_of_dvd (profile t fs : Nat)
    (hp : profile ≤ 3) (hd : (profile + 1) ∣ fs) (ht : t < fs) :
    rotationsFor profile t fs = equalWidthBand profile t fs := by
  obtain ⟨m, rfl⟩ := hd
  interval_cases profile
  · have h1 : t < m := by omega
    simp [rotationsFor, equalWidthBand, Nat.div_eq_of_lt h1]
  · have hm : 0 < m := by omega
    have e2 : t * 2 / (2 * m) = t / m := by
      rw [Nat.mul_comm t 2, Nat.mul_div_mul_left _ _ (by norm_num : (0:Nat) < 2)]
    simp only [rotationsFor, equalWidthBand]
    norm_num
    rw [e2]
    by_cases hlt : t < m
    · simp [hlt, Nat.div_eq_of_lt hlt]
    · have h1 : t / m = 1 :=
        Nat.div_eq_of_lt_le (by omega) (by omega)
      simp [hlt, h1]
  · have hm : 0 < m := by omega
    have e15 : 3 * m * 2 / 3 = 2 * m := by omega
    have e2 : t * 3 / (3 * m) = t / m := by
      rw [Nat.mul_comm t 3, Nat.mul_div_mul_left _ _ (by norm_num : (0:Nat) < 3)]
    simp only [rotationsFor, equalWidthBand]
    norm_num
    rw [e15, e2]
    by_cases h0 : t < m
    · simp [h0, Nat.div_eq_of_lt h0]
    · by_cases h1 : t < 2 * m
      · have hq : t / m = 1 := Nat.div_eq_of_lt_le (by omega) (by omega)
        simp [h0, h1, hq]
      · have hq : t / m = 2 := Nat.div_eq_of_lt_le (by omega) (by omega)
        simp [h0, h1, hq]
  · have hm : 0 < m := by omega
    have e2 : 4 * m / 2 = 2 * m := by omega
    have e3 : 4 * m * 3 / 4 = 3 * m := by omega
    have e4 : t * 4 / (4 * m) = t / m := by
      rw [Nat.mul_comm t 4, Nat.mul_div_mul_left _ _ (by norm_num : (0:Nat) < 4)]
    simp only [rotationsFor, equalWidthBand]
    norm_num
    rw [e2, e3, e4]
    by_cases h0 : t < m
    · simp [h0, Nat.div_eq_of_lt h0]
    · by_cases h1 : t < 2 * m
      · have hq : t / m = 1 := Nat.div_eq_of_lt_le (by omega) (by omega)
        simp [h0, h1, hq]
      · by_cases h2 : t < 3 * m
        · have hq : t / m = 2 := Nat.div_eq_of_lt_le (by omega) (by omega)
          simp [h0, h1, h2, hq]
        · have hq : t / m = 3 := Nat.div_eq_of_lt_le (by omega) (by omega)
          simp [h0, h1, h2, hq]

/-- Witness for the amended rotation-banding claim at the spec's own
instance: rotation_profile 2, fall_stop 12, tick 9 lies in band 2. -/
theorem rotations_match_equal_width_band_witness :
    rotationsFor 2 9 12 = equalWidthBand 2 9 12 :=
  rotations_match_equal_width_band_of_dvd 2 9 12 (by norm_num)
    ⟨4, by norm_num⟩ (by norm_num)

theorem fallingBeforeLanded_of_all_landed :
    ∀ l : List PaintKind, (∀ k ∈ l, k = PaintKind.landed) →
      fallingBeforeLanded l = true := by
  intro l h
  match l with
  | [] => rfl
  | a :: t =>
    rw [h a (List.mem_cons_self a t)]
    show t.all (fun k => k = PaintKind.landed) = true
    rw [List.all_eq_true]
    intro k hk
    simp [h k (List.mem_cons_of_mem _ hk)]

theorem kind_mem_landedOpsFor (x y xShift : Int) (fd : List Step) (n : Nat) :
    ∀ k ∈ (landedOpsFor x y xShift fd n).map ShapeOp.kind,
      k = PaintKind.landed := by
  intro k hk
  simp only [landedOpsFor, List.map_map, List.mem_map, List.mem_range] at hk
  obtain ⟨i, _, rfl⟩ := hk
  rfl

/-- Claim C1 counterexample: in a compositor pass for a slot showing
digit 0 with its second piece falling (blockindex 1, fallindex 0), the
falling draw is issued before the landed draw of step 0, so the
already-landed steps are not painted before the currently falling
piece. -/
theorem landed_not_painted_before_falling :
    landedBeforeFalling
      ((slotDraw 2 (-6)
        { num_to_draw := 0, fallindex := 0, blockindex := 1, x_shift := 0 }).1.map
        ShapeOp.kind) = false := by
  decide

/-- Claim C1 (amended): in each compositor pass, for every slot, the
currently falling piece is painted before the already-landed steps
(indices 0..step_index-1); since later draws overwrite earlier ones in
the same cells, a landed piece painted afterwards can overwrite cells of
the live falling piece where they overlap. -/
theorem falling_piece_painted_first (x y : Int) (s : NumState) :
    fallingBeforeLanded ((slotDraw x y s).1.map ShapeOp.kind) = true := by
  by_cases hv : s.num_to_draw < 0 ∨ 9 < s.num_to_draw
  · simp [slotDraw, hv, fallingBeforeLanded]
  · simp only [slotDraw, if_neg hv, List.map_append]
    by_cases hb : s.blockindex < (scriptFor s.num_to_draw).length
    · simp only [fallingOpsFor, if_pos hb, List.map_cons, List.map_nil,
        List.cons_append, List.nil_append]
      rw [show ∀ l, fallingBeforeLanded (PaintKind.falling :: l) =
        fallingBeforeLanded l from fun _ => rfl]
      exact fallingBeforeLanded_of_all_landed _ (kind_mem_landedOpsFor _ _ _ _ _)
    · simp only [fallingOpsFor, if_neg hb, List.map_nil, List.nil_append]
      exact fallingBeforeLanded_of_all_landed _ (kind_mem_landedOpsFor _ _ _ _ _)

/-- Claim C3 counterexample: for the slot showing digit 0 with its first
piece (fall_stop 16) falling at tick 2, in the pass with x = 2 and
top-of-drop row -6 (y_finish = 26), the falling piece is drawn at
y = -4, not at 2 * SCALE pixels above the step's resting row
restingY (-6) 16 = 24 as the claim would require. -/
theorem falling_offset_not_tick_above_landing :
    stepAt NUM_0 0 = (2, 5, 4, 16, 0) ∧
    (((slotDraw 2 (-6)
        { num_to_draw := 0, fallindex := 2, blockindex := 0,
          x_shift := 0 }).1.head?).map ShapeOp.y) = some (-4) ∧
    ((-4 : Int)) ≠ restingY (-6) 16 - 2 * SCALE := by
  refine ⟨rfl, by decide, by decide⟩

/-- Claim C3 (amended): the falling piece at tick_in_step t is drawn
(fall_stop - t) * SCALE pixels above the step's landing row,
equivalently t * SCALE pixels below the pass's top-of-drop row; it
reaches the landing row exactly when t = fall_stop. -/
theorem falling_offset_from_landing_row (x y : Int) (s : NumState)
    (hv : ¬(s.num_to_draw < 0 ∨ 9 < s.num_to_draw))
    (hb : s.blockindex < (scriptFor s.num_to_draw).length) :
    ((slotDraw x y s).1.head?).map ShapeOp.y =
      some (restingY y (fallStopAt (scriptFor s.num_to_draw) s.blockindex) -
        ((fallStopAt (scriptFor s.num_to_draw) s.blockindex : Int) -
          (s.fallindex : Int)) * SCALE) := by
  simp only [slotDraw, if_neg hv, fallingOpsFor, if_pos hb, List.cons_append,
    List.head?_cons, Option.map_some']
  congr 1
  simp only [restingY, fallStopAt]
  ring

/-- Witness for the amended fall-offset claim at the counterexample's
input: digit 0, first piece, tick 2, pass top row -6. -/
theorem falling_offset_from_landing_row_witness :
    ((slotDraw 2 (-6)
      { num_to_draw := 0, fallindex := 2, blockindex := 0,
        x_shift := 0 }).1.head?).map ShapeOp.y =
      some (restingY (-6) (fallStopAt (scriptFor 0) 0) -
        ((fallStopAt (scriptFor 0) 0 : Int) - (2 : Int)) * SCALE) :=
  falling_offset_from_landing_row 2 (-6) _ (by decide) (by decide)

/-- Claim C4: set_time with force_refresh = false leaves a slot whose
parsed digit equals its currently displayed digit completely untouched,
so blockindex and fallindex are unchanged and the animation is not
restarted. -/
theorem set_time_unchanged_digit_no_restart (states : List NumState)
    (ts : List Char) (pos : Nat) (h4 : pos < 4) (hlen : pos < states.length)
    (hsame : parseDigit (slotChar ts pos) = (states.getD pos initState).num_to_draw) :
    (setTime states ts false).getD pos initState = states.getD pos initState := by
  rw [setTime_getD states ts false pos h4 hlen]
  unfold setTimeSlot
  simp [hsame]

/-- Witness for the idempotence claim: with slot 0 already showing
digit 1 (mid-animation at fallindex 5, blockindex 2), set_time with the
same leading digit and no force leaves the slot untouched. -/
theorem set_time_unchanged_digit_witness :
    (setTime
      (List.replicate 6
        { num_to_draw := 1, fallindex := 5, blockindex := 2, x_shift := 0 })
      ['1', '2', ':', '3', '4'] false).getD 0 initState =
      (List.replicate 6
        ({ num_to_draw := 1, fallindex := 5, blockindex := 2,
           x_shift := 0 } : NumState)).getD 0 initState :=
  set_time_unchanged_digit_no_restart _ _ 0 (by norm_num) (by decide) (by decide)

/-- Claim C5: set_time with force_refresh = true resets every digit
slot's animation state — num_to_draw is reassigned from the time string,
x_shift is recomputed, and fallindex and blockindex are reset to 0 —
regardless of whether the new digit equals the displayed one. -/
theorem set_time_force_refresh_resets (states : List NumState)
    (ts : List Char) (pos : Nat) (h4 : pos < 4) (hlen : pos < states.length) :
    (setTime states ts true).getD pos initState =
      { num_to_draw := parseDigit (slotChar ts pos), fallindex := 0,
        blockindex := 0, x_shift := xOffsetFor pos } := by
  rw [setTime_getD states ts true pos h4 hlen]
  unfold setTimeSlot
  simp

/-- Witness for the forced-refresh claim: slot 1 already shows digit 2
mid-animation and the new string carries the same digit, yet force
resets it. -/
theorem set_time_force_refresh_witness :
    (setTime
      (List.replicate 6
        { num_to_draw := 2, fallindex := 5, blockindex := 2, x_shift := 14 })
      ['1', '2', ':', '3', '4'] true).getD 1 initState =
      { num_to_draw := parseDigit (slotChar ['1', '2', ':', '3', '4'] 1),
        fallindex := 0, blockindex := 0, x_shift := xOffsetFor 1 } :=
  set_time_force_refresh_resets _ _ 1 (by norm_num) (by decide)

/-- The per-slot state-machine invariant: blockindex never exceeds the
active digit's script length, and fallindex never exceeds the current
step's fall_stop (and is 0 once the slot has landed or is blank). -/
def SlotInv (s : NumState) : Prop :=
  s.blockindex ≤ (scriptFor s.num_to_draw).length ∧
    s.fallindex ≤ currentFallStop s

theorem slotInv_init : SlotInv initState := by
  constructor <;> decide

theorem slotDraw_snd (x y : Int) (s : NumState) :
    (slotDraw x y s).2 =
      if s.num_to_draw < 0 ∨ 9 < s.num_to_draw then s
      else advanceSlot s (scriptFor s.num_to_draw) := by
  unfold slotDraw
  split <;> rfl

theorem slotInv_advance (s : NumState) (h : SlotInv s) :
    SlotInv (advanceSlot s (scriptFor s.num_to_draw)) := by
  obtain ⟨hb, hf⟩ := h
  unfold advanceSlot
  by_cases hlt : s.blockindex < (scriptFor s.num_to_draw).length
  · rw [if_pos hlt]
    by_cases hland : fallStopAt (scriptFor s.num_to_draw) s.blockindex <
        s.fallindex + 1
    · rw [if_pos hland]
      refine ⟨by simpa using hlt, Nat.zero_le _⟩
    · rw [if_neg hland]
      refine ⟨by simpa using hb, ?_⟩
      show s.fallindex + 1 ≤ currentFallStop _
      have hcur : currentFallStop { s with fallindex := s.fallindex + 1 } =
          fallStopAt (scriptFor s.num_to_draw) s.blockindex := by
        simp [currentFallStop, hlt]
      rw [hcur]
      omega
  · rw [if_neg hlt]
    exact ⟨hb, hf⟩

theorem slotInv_tick (x y : Int) (s : NumState) (h : SlotInv s) :
    SlotInv ((slotDraw x y s).2) := by
  rw [slotDraw_snd]
  split
  · exact h
  · exact slotInv_advance s h

theorem slotInv_assign (s : NumState) (ts : List Char) (pos : Nat)
    (force : Bool) (h : SlotInv s) : SlotInv (setTimeSlot s ts pos force) := by
  simp only [setTimeSlot]
  split
  · exact ⟨Nat.zero_le _, Nat.zero_le _⟩
  · exact h

theorem slotInv_runOps (ops : List SlotOp) :
    ∀ s : NumState, SlotInv s → SlotInv (runOps ops s) := by
  induction ops with
  | nil => intro s h; exact h
  | cons op rest ih =>
    intro s h
    show SlotInv (runOps rest (applySlotOp s op))
    apply ih
    cases op with
    | tick x y => exact slotInv_tick x y s h
    | assign ts pos force => exact slotInv_assign s ts pos force h

/-- Claim C6: across every sequence of draw_numbers ticks and set_time
assignments starting from the initial slot state, a slot's fallindex
stays within [0, fall_stop] of the current step (and is 0 once the slot
has landed), and its blockindex never exceeds the active digit's script
length. -/
theorem slot_state_machine_invariant (ops : List SlotOp) :
    (runOps ops initState).blockindex ≤
        (scriptFor (runOps ops initState).num_to_draw).length ∧
      (runOps ops initState).fallindex ≤ currentFallStop (runOps ops initState) :=
  slotInv_runOps ops initState slotInv_init

theorem syncAttempts_all_fail (fetch : Nat → Option Int)
    (max_retries retry_delay : Nat) (clock : Int) :
    ∀ l : List Nat, (∀ i ∈ l, fetch i = none) →
      syncAttempts fetch max_retries retry_delay clock l =
        (l.flatMap (fun i => SyncEvent.attempt i ::
          (if i < max_retries - 1 then [SyncEvent.sleep retry_delay] else [])),
         false, clock) := by
  intro l
  induction l with
  | nil => intro _; rfl
  | cons i rest ih =>
    intro h
    have hi := h i (List.mem_cons_self i rest)
    simp only [syncAttempts, hi]
    rw [ih (fun j hj => h j (List.mem_cons_of_mem _ hj))]
    simp [List.flatMap_cons]

theorem countP_attempts (max_retries retry_delay : Nat) :
    ∀ l : List Nat,
      (l.flatMap (fun i => SyncEvent.attempt i ::
        (if i < max_retries - 1 then [SyncEvent.sleep retry_delay] else []))).countP
        SyncEvent.isAttempt = l.length := by
  intro l
  induction l with
  | nil => rfl
  | cons i rest ih =>
    simp only [List.flatMap_cons, List.countP_append, List.countP_cons, ih]
    split <;> simp [SyncEvent.isAttempt, List.countP, List.countP.go] <;> omega

/-- Claim C7: when every fetch attempt fails, sync_time_with_retry
returns false, leaves the system clock unmutated, performs exactly
max_retries attempts with one retry_delay sleep between consecutive
attempts (none after the last), and — the model being a total function —
lets no exception escape. -/
theorem sync_all_attempts_fail (fetch : Nat → Option Int)
    (max_retries retry_delay : Nat) (clock : Int)
    (h : ∀ i < max_retries, fetch i = none) :
    (sync_time_with_retry fetch max_retries retry_delay clock).2.1 = false ∧
    (sync_time_with_retry fetch max_retries retry_delay clock).2.2 = clock ∧
    (sync_time_with_retry fetch max_retries retry_delay clock).1 =
      (List.range max_retries).flatMap (fun i => SyncEvent.attempt i ::
        (if i < max_retries - 1 then [SyncEvent.sleep retry_delay] else [])) ∧
    (sync_time_with_retry fetch max_retries retry_delay clock).1.countP
      SyncEvent.isAttempt = max_retries := by
  have key := syncAttempts_all_fail fetch max_retries retry_delay clock
    (List.range max_retries) (fun i hi => h i (List.mem_range.mp hi))
  unfold sync_time_with_retry
  rw [key]
  refine ⟨rfl, rfl, rfl, ?_⟩
  rw [countP_attempts, List.length_range]

/-- Witness for the retry claim at the defaults TIME_SYNC_RETRIES = 3,
TIME_SYNC_RETRY_DELAY = 5, with a fetch oracle that always fails. -/
theorem sync_all_attempts_fail_witness :
    (sync_time_with_retry (fun _ => none) 3 5 7).2.1 = false ∧
    (sync_time_with_retry (fun _ => none) 3 5 7).2.2 = 7 ∧
    (sync_time_with_retry (fun _ => none) 3 5 7).1 =
      (List.range 3).flatMap (fun i => SyncEvent.attempt i ::
        (if i < 3 - 1 then [SyncEvent.sleep 5] else [])) ∧
    (sync_time_with_retry (fun _ => none) 3 5 7).1.countP
      SyncEvent.isAttempt = 3 :=
  sync_all_attempts_fail (fun _ => none) 3 5 7 (fun _ _ => rfl)

theorem dailyRun_same_day_no_fire (h m d : Int) :
    ∀ ts : List LoopTime, (∀ t ∈ ts, t.mday = d) →
      dailyRun h m d ts = (List.replicate ts.length false, d) := by
  intro ts
  induction ts with
  | nil => intro _; rfl
  | cons t rest ih =>
    intro hall
    have ht := hall t (List.mem_cons_self t rest)
    simp only [dailyRun, dailyCheck, ht]
    rw [if_neg (by simp)]
    rw [ih (fun u hu => hall u (List.mem_cons_of_mem _ hu))]
    simp [List.replicate_succ]

/-- Claim C8: over any run of ticks all falling on the same calendar
day, the daily-reconnect guard fires at most once; and if the marker
does not already hold that day and the first tick is at the trigger
hour and minute, the guard fires on that first tick and on no later
tick of the day. -/
theorem daily_reconnect_at_most_once (h m lastDay d : Int)
    (ts : List LoopTime) (hday : ∀ t ∈ ts, t.mday = d) :
    (dailyRun h m lastDay ts).1.count true ≤ 1 ∧
    (∀ t0 rest, ts = t0 :: rest → lastDay ≠ d → t0.hour = h → t0.minute = m →
      (dailyRun h m lastDay ts).1 = true :: List.replicate rest.length false) := by
  constructor
  · induction ts generalizing lastDay with
    | nil => simp [dailyRun]
    | cons t rest ih =>
      have ht := hday t (List.mem_cons_self t rest)
      have hrest : ∀ u ∈ rest, u.mday = d :=
        fun u hu => hday u (List.mem_cons_of_mem _ hu)
      by_cases hc : t.hour = h ∧ t.minute = m ∧ t.mday ≠ lastDay
      · simp only [dailyRun, dailyCheck, if_pos hc]
        rw [ht, dailyRun_same_day_no_fire h m d rest hrest]
        simp [List.count_cons, List.count_replicate]
      · simp only [dailyRun, dailyCheck, if_neg hc]
        have := ih lastDay hrest
        simp only [List.count_cons]
        simpa using this
  · intro t0 rest hts hlast hh hm
    subst hts
    have ht0 : t0.mday = d := hday t0 (List.mem_cons_self t0 rest)
    have hrest : ∀ u ∈ rest, u.mday = d :=
      fun u hu => hday u (List.mem_cons_of_mem _ hu)
    have hc : t0.hour = h ∧ t0.minute = m ∧ t0.mday ≠ lastDay := by
      refine ⟨hh, hm, ?_⟩
      rw [ht0]
      exact fun e => hlast e.symm
    simp only [dailyRun, dailyCheck, if_pos hc]
    rw [ht0, dailyRun_same_day_no_fire h m d rest hrest]

/-- Witness for the daily-reconnect claim: trigger 02:01, day-of-month 5
observed on three consecutive ticks; the guard fires on the first tick
only. -/
theorem daily_reconnect_at_most_once_witness :
    (dailyRun 2 1 (-1)
      [⟨2, 1, 5⟩, ⟨2, 1, 5⟩, ⟨2, 1, 5⟩]).1.count true ≤ 1 ∧
    (dailyRun 2 1 (-1)
      [⟨2, 1, 5⟩, ⟨2, 1, 5⟩, ⟨2, 1, 5⟩]).1 =
      true :: List.replicate 2 false := by
  have key := daily_reconnect_at_most_once 2 1 (-1) 5
    [⟨2, 1, 5⟩, ⟨2, 1, 5⟩, ⟨2, 1, 5⟩] (by intro t ht; fin_cases ht <;> rfl)
  exact ⟨key.1, key.2 ⟨2, 1, 5⟩ [⟨2, 1, 5⟩, ⟨2, 1, 5⟩] rfl (by decide) rfl rfl⟩

/-- Claim C9: a time-string character that is not a decimal digit
(including the blank for a suppressed leading hour digit) makes set_time
store the blank marker -1 in that slot, and draw_numbers paints nothing
for a slot holding -1 and leaves its state untouched, whatever the rest
of the slot state is; both operations are total, so no exception is
raised. -/
theorem invalid_char_renders_blank :
    (∀ (s : NumState) (ts : List Char) (pos : Nat) (force : Bool),
        ¬(slotChar ts pos).isDigit = true →
        (setTimeSlot s ts pos force).num_to_draw = -1) ∧
    (∀ (x y : Int) (s : NumState), s.num_to_draw = -1 →
        slotDraw x y s = ([], s)) := by
  constructor
  · intro s ts pos force h
    have hp : parseDigit (slotChar ts pos) = -1 := by
      simp [parseDigit, h]
    simp only [setTimeSlot, hp]
    split
    · rfl
    · rename_i hcond
      push_neg at hcond
      exact hcond.2.symm
  · intro x y s h
    have hneg : s.num_to_draw < 0 ∨ 9 < s.num_to_draw := by
      left
      rw [h]
      norm_num
    simp [slotDraw, hneg]

/-- Witness for the blank-slot claim: the space of a suppressed leading
hour digit leaves slot 0 blank, and a blank slot in an arbitrary
mid-animation state paints nothing. -/
theorem invalid_char_renders_blank_witness :
    (setTimeSlot initState [' ', '7', ':', '4', '5'] 0 false).num_to_draw = -1 ∧
    slotDraw 2 (-6)
        { num_to_draw := -1, fallindex := 3, blockindex := 2, x_shift := 14 } =
      ([], { num_to_draw := -1, fallindex := 3, blockindex := 2, x_shift := 14 }) :=
  ⟨invalid_char_renders_blank.1 initState [' ', '7', ':', '4', '5'] 0 false
      (by decide),
   invalid_char_renders_blank.2 2 (-6) _ rfl⟩

theorem mem_drawBlock_bounds (x y : Int) (c scale : Nat)
    (p : Int × Int × Nat) (hp : p ∈ drawBlock x y c scale) :
    0 ≤ p.1 ∧ p.1 < DISPLAY_WIDTH ∧ 0 ≤ p.2.1 ∧ p.2.1 < DISPLAY_HEIGHT := by
  simp only [drawBlock, List.mem_flatMap, List.mem_filterMap, List.mem_range] at hp
  obtain ⟨dx, _, dy, _, hif⟩ := hp
  split at hif
  · rename_i hcond
    cases hif
    exact hcond
  · exact absurd hif (by simp)

/-- Claim C10: every frame-buffer write issued by draw_block — and hence
by every draw_shape call, including pieces drawn partly above the top
edge early in their fall — targets a pixel with 0 ≤ px < 64 and
0 ≤ py < 32; out-of-range coordinates are filtered out, never written. -/
theorem draw_calls_stay_in_bounds :
    (∀ (x y : Int) (c scale : Nat) (p : Int × Int × Nat),
        p ∈ drawBlock x y c scale →
        0 ≤ p.1 ∧ p.1 < DISPLAY_WIDTH ∧ 0 ≤ p.2.1 ∧ p.2.1 < DISPLAY_HEIGHT) ∧
    (∀ (blocktype c : Nat) (x y : Int) (rot scale : Nat) (p : Int × Int × Nat),
        p ∈ drawShape blocktype c x y rot scale →
        0 ≤ p.1 ∧ p.1 < DISPLAY_WIDTH ∧ 0 ≤ p.2.1 ∧ p.2.1 < DISPLAY_HEIGHT) := by
  refine ⟨fun x y c scale p hp => mem_drawBlock_bounds x y c scale p hp, ?_⟩
  intro blocktype c x y rot scale p hp
  simp only [drawShape, List.mem_flatMap] at hp
  obtain ⟨off, _, hmem⟩ := hp
  exact mem_drawBlock_bounds _ _ _ _ p hmem

/-- Witness for the bounds claim: a square piece drawn at the origin
with the default scale writes the pixel (0, 0), which is in bounds. -/
theorem draw_calls_stay_in_bounds_witness :
    0 ≤ ((0, 0, 5) : Int × Int × Nat).1 ∧
    ((0, 0, 5) : Int × Int × Nat).1 < DISPLAY_WIDTH ∧
    0 ≤ ((0, 0, 5) : Int × Int × Nat).2.1 ∧
    ((0, 0, 5) : Int × Int × Nat).2.1 < DISPLAY_HEIGHT :=
  draw_calls_stay_in_bounds.2 0 5 0 0 0 2 (0, 0, 5) (by decide)

end TetrisClock
